import Mathlib

/-!
Verification of the code-reviewer MCP server (src/index.ts): a shallow
embedding of its diff-reduction and comment-extraction pipeline and of the
tool-argument validation.  JS strings are modelled as lists of characters;
the JS operations split, trim, startsWith, includes, substring and the
three regular expressions used by the parser are modelled as executable
functions with the same semantics on the inputs the program handles.
-/

set_option maxRecDepth 4000

/-- Models needle-is-a-prefix-of-hay on character sequences
(the prefix test underlying JS String.prototype.includes). -/
def startsWithSeq : List Char → List Char → Bool
  | [], _ => true
  | _ :: _, [] => false
  | a :: as, b :: bs => a == b && startsWithSeq as bs

/-- Models JS hay.includes(needle): the needle occurs as a contiguous
subsequence of the hay (the empty needle always occurs). -/
def containsSeq (needle : List Char) : List Char → Bool
  | [] => needle.isEmpty
  | b :: bs => startsWithSeq needle (b :: bs) || containsSeq needle bs

/-- Models JS line.startsWith(c) for a single character c. -/
def startsWithChar (c : Char) : List Char → Bool
  | [] => false
  | a :: _ => a == c

/-- The whitespace class trimmed by JS String.prototype.trim, restricted to
the ASCII whitespace characters (the program never feeds it the exotic
Unicode space characters). -/
def jsWhitespace (c : Char) : Bool :=
  c == ' ' || c == '\t' || c == '\n' || c == '\r' || c == '\x0B' || c == '\x0C'

/-- Models JS s.trim(): whitespace removed from both ends. -/
def trim (s : List Char) : List Char :=
  ((s.dropWhile jsWhitespace).reverse.dropWhile jsWhitespace).reverse

/-- Models JS s.split(newline): the list of chunks between newline
characters.  Like the JS original it is never empty, and a trailing
newline yields a final empty chunk. -/
def splitLines : List Char → List (List Char)
  | [] => [[]]
  | c :: rest =>
    if c = '\n' then [] :: splitLines rest
    else
      match splitLines rest with
      | [] => [[c]]
      | l :: ls => (c :: l) :: ls

/-- The diff reduction of src/index.ts lines 138-144: when the text
contains the marker and exceeds 5000 characters, keep only the lines
beginning with plus or minus, rejoin with newlines and cut to the first
5000 characters; otherwise pass the diff through unchanged. -/
def reduceDiff (diff : List Char) : List Char :=
  if containsSeq ( "diff --git".toList) diff = true ∧ 5000 < diff.length then
    (List.intercalate ['\n']
      ((splitLines diff).filter fun l => startsWithChar '+' l || startsWithChar '-' l)).take 5000
  else diff

/-- Reference definition written from the words of the specification of the
diff reduction (spec section 4.1 and claim C2), to be compared with
reduceDiff: no marker or length at most 5000 means unchanged, else the
newline-join of the plus/minus lines truncated to 5000 characters. -/
def reduceDiffSpec (diff : List Char) : List Char :=
  if containsSeq ( "diff --git".toList) diff = false ∨ diff.length ≤ 5000 then diff
  else
    (List.intercalate ['\n']
      ((splitLines diff).filter fun l => startsWithChar '+' l || startsWithChar '-' l)).take 5000

/-- Splits a sequence at its first colon: returns the characters before the
first colon (all colon-free) and the characters after it, or none when no
colon occurs. -/
def splitAtFirstColon : List Char → Option (List Char × List Char)
  | [] => none
  | c :: rest =>
    if c = ':' then some ([], rest)
    else
      match splitAtFirstColon rest with
      | none => none
      | some (pre, post) => some (c :: pre, post)

/-- Models the JS regular expression match of src/index.ts line 221, the
three-field grammar caret ([^:]+):([^:]+):(.*) dollar: field 1 is the
nonempty colon-free text before the first colon, field 2 the nonempty
colon-free text between the first and second colons, field 3 everything
after the second colon (it may contain colons and may be empty).  Returns
none exactly when the regex does not match the line. -/
def matchCommentLine (line : List Char) : Option (List Char × List Char × List Char) :=
  match splitAtFirstColon line with
  | none => none
  | some (f1, rest) =>
    if f1.isEmpty then none
    else
      match splitAtFirstColon rest with
      | none => none
      | some (f2, f3) => if f2.isEmpty then none else some (f1, f2, f3)

/-- Models JS parseInt(s, 10) on an all-digit string. -/
def digitsToNat (ds : List Char) : Nat :=
  ds.foldl (fun n c => 10 * n + (c.toNat - 48)) 0

/-- Models the regular expression caret (backslash-d+) dollar of
src/index.ts line 232: the whole string is one or more digits. -/
def matchSingleLine (s : List Char) : Option Nat :=
  if !s.isEmpty && s.all (fun c => c.isDigit) then some (digitsToNat s) else none

/-- Models the regular expression caret (backslash-d+)-(backslash-d+)
dollar of src/index.ts line 231: digits, a dash, digits, nothing else;
captures the two numbers in order. -/
def matchLineRange (s : List Char) : Option (Nat × Nat) :=
  match s.drop (s.takeWhile (fun c => c.isDigit)).length with
  | '-' :: d2 =>
    if !(s.takeWhile (fun c => c.isDigit)).isEmpty && !d2.isEmpty
        && d2.all (fun c => c.isDigit) then
      some (digitsToNat (s.takeWhile (fun c => c.isDigit)), digitsToNat d2)
    else none
  | _ => none

/-- The side tag of a positioned review comment. -/
inductive Side where
  | LEFT : Side
  | RIGHT : Side
deriving DecidableEq

/-- One entry of the comments array built in src/index.ts lines 215 and
238-255: a positioned review comment.  For a range comment the code stores
the first captured number in start_line and the second in line, with both
side tags RIGHT; for a single-line comment only line and side are set. -/
structure PositionedComment where
  path : List Char
  body : List Char
  line : Nat
  start_line : Option Nat
  side : Side
  start_side : Option Side
deriving DecidableEq

/-- The accumulating state of the response parsing loop of src/index.ts
lines 215-266: the comments array, the generalCommentBody string, and the
warnings written by console.error (the diagnostic signal of the
unparseable-line-spec branch). -/
structure ParseState where
  comments : List PositionedComment
  generalCommentBody : List Char
  diagnostics : List (List Char)
deriving DecidableEq

/-- The state at loop entry: no comments, empty general buffer. -/
def emptyState : ParseState := ⟨[], [], []⟩

/-- The body of the for-loop of src/index.ts lines 220-266, processing one
line of the model response against the current state. -/
def processLine (st : ParseState) (line : List Char) : ParseState :=
  match matchCommentLine line with
  | none =>
    { st with generalCommentBody := st.generalCommentBody ++ line ++ ['\n'] }
  | some (f1, f2, f3) =>
    if trim f1 = "GENERAL".toList then
      { st with generalCommentBody := st.generalCommentBody ++ trim f3 ++ ['\n'] }
    else
      match matchLineRange (trim f2) with
      | some (startLine, endLine) =>
        { st with comments := st.comments ++
            [⟨trim f1, trim f3, endLine, some startLine, Side.RIGHT, some Side.RIGHT⟩] }
      | none =>
        match matchSingleLine (trim f2) with
        | some lineNumber =>
          { st with comments := st.comments ++
              [⟨trim f1, trim f3, lineNumber, none, Side.RIGHT, none⟩] }
        | none =>
          { st with
              generalCommentBody := st.generalCommentBody ++ "File: ".toList ++ trim f1
                ++ ", Line Info: ".toList ++ trim f2 ++ ": ".toList ++ trim f3 ++ ['\n'],
              diagnostics := st.diagnostics ++
                [ "[Warning] Could not parse line number info: ".toList ++ trim f2
                  ++ " for file ".toList ++ trim f1] }

/-- Folding the loop body over a list of response lines. -/
def parseLines (ls : List (List Char)) (st : ParseState) : ParseState :=
  ls.foldl processLine st

/-- The whole parsing phase: split the model response on newlines and run
the loop from the empty state. -/
def parseResponse (responseText : List Char) : ParseState :=
  parseLines (splitLines responseText) emptyState

/-- The review body computed at src/index.ts line 272:
generalCommentBody.trim() when that is nonempty (JS truthiness of the
trimmed string), else the fixed default text. -/
def reviewBody (st : ParseState) : List Char :=
  if (trim st.generalCommentBody).isEmpty then "Automated code review".toList
  else trim st.generalCommentBody

/-- Reference definition written from the words of claim C9: the buffer
trimmed of trailing whitespace only.  Used to compare the claimed summary
with the one the code computes. -/
def trimTrailing (s : List Char) : List Char :=
  (s.reverse.dropWhile jsWhitespace).reverse

/-- A JS runtime value as far as the argument validation of src/index.ts
lines 104-115 can observe it: strings, numbers (the tool only ever deals
in integral ones), booleans, null, undefined (also standing for an absent
field), or some other object. -/
inductive JSVal where
  | str : List Char → JSVal
  | num : Int → JSVal
  | bool : Bool → JSVal
  | null : JSVal
  | undef : JSVal
  | obj : JSVal
deriving DecidableEq

/-- JS truthiness of a value: empty string, zero, false, null and
undefined are falsy, everything else truthy. -/
def truthy : JSVal → Bool
  | .str s => !s.isEmpty
  | .num n => n != 0
  | .bool b => b
  | .null => false
  | .undef => false
  | .obj => true

/-- Whether a JS value is a string (the declared type of owner and repo). -/
def isString : JSVal → Bool
  | .str _ => true
  | _ => false

/-- Outcome of the argument check of src/index.ts lines 110-115: either the
request is rejected with an InvalidParams error message, or the pipeline
(diff fetch, model call, parsing) runs with the given argument values. -/
inductive HandlerOutcome where
  | invalidParams : List Char → HandlerOutcome
  | pipeline : JSVal → JSVal → JSVal → HandlerOutcome
deriving DecidableEq

/-- The argument validation of src/index.ts lines 110-115: the handler
destructures owner, repo and pull_number (an absent field is undefined)
and throws InvalidParams when any of the three is falsy; otherwise the
pipeline runs.  No type check is performed. -/
def handleArgs (owner repo pull_number : JSVal) : HandlerOutcome :=
  if truthy owner && truthy repo && truthy pull_number then
    HandlerOutcome.pipeline owner repo pull_number
  else
    HandlerOutcome.invalidParams "Missing required parameters: owner, repo, pull_number".toList

/-- The JS split never returns an empty list of chunks. -/
theorem splitLines_ne_nil (s : List Char) : splitLines s ≠ [] := by
  induction s with
  | nil => simp [splitLines]
  | cons c rest ih =>
    simp only [splitLines]
    by_cases h : c = '\n'
    · simp [h]
    · rw [if_neg h]
      cases hm : splitLines rest <;> simp

/-- Splitting on newlines distributes over concatenation at an explicit
newline character. -/
theorem splitLines_append_newline (xs ys : List Char) :
    splitLines (xs ++ '\n' :: ys) = splitLines xs ++ splitLines ys := by
  induction xs with
  | nil => simp [splitLines]
  | cons c xs ih =>
    by_cases h : c = '\n'
    · subst h
      simp [splitLines, ih]
    · obtain ⟨l, ls, hl⟩ : ∃ l ls, splitLines xs = l :: ls := by
        cases hm : splitLines xs with
        | nil => exact absurd hm (splitLines_ne_nil xs)
        | cons a b => exact ⟨a, b, rfl⟩
      simp [splitLines, h, ih, hl]

/-- A trailing newline contributes one final empty line chunk. -/
theorem splitLines_concat_newline (xs : List Char) :
    splitLines (xs ++ ['\n']) = splitLines xs ++ [[]] := by
  simpa [splitLines] using splitLines_append_newline xs []

/-- The loop body only ever appends to the three accumulators, and what it
appends depends on the current line alone, not on the state. -/
theorem processLine_decomp (st : ParseState) (line : List Char) :
    processLine st line =
      { comments := st.comments ++ (processLine emptyState line).comments,
        generalCommentBody :=
          st.generalCommentBody ++ (processLine emptyState line).generalCommentBody,
        diagnostics := st.diagnostics ++ (processLine emptyState line).diagnostics } := by
  cases h : matchCommentLine line with
  | none => simp [processLine, h, emptyState]
  | some t =>
    obtain ⟨f1, f2, f3⟩ := t
    simp only [processLine, h, emptyState]
    split_ifs with hg
    · simp
    · cases hr : matchLineRange (trim f2) with
      | some p =>
        obtain ⟨s, e⟩ := p
        simp [hr]
      | none =>
        cases hs : matchSingleLine (trim f2) with
        | some n => simp [hr, hs]
        | none => simp [hr, hs]

/-- Folding the loop over the concatenation of two line lists is folding
over the first and then the second. -/
theorem parseLines_append (ls1 ls2 : List (List Char)) (st : ParseState) :
    parseLines (ls1 ++ ls2) st = parseLines ls2 (parseLines ls1 st) := by
  simp [parseLines, List.foldl_append]

/-- The whole loop only appends to the accumulators, and its total
contribution is the one computed from the empty state. -/
theorem parseLines_decomp (ls : List (List Char)) (st : ParseState) :
    parseLines ls st =
      { comments := st.comments ++ (parseLines ls emptyState).comments,
        generalCommentBody :=
          st.generalCommentBody ++ (parseLines ls emptyState).generalCommentBody,
        diagnostics := st.diagnostics ++ (parseLines ls emptyState).diagnostics } := by
  induction ls generalizing st with
  | nil => simp [parseLines, emptyState]
  | cons l ls ih =>
    simp only [parseLines, List.foldl_cons]
    rw [show List.foldl processLine (processLine st l) ls = parseLines ls (processLine st l) from rfl,
        show List.foldl processLine (processLine emptyState l) ls
          = parseLines ls (processLine emptyState l) from rfl,
        ih (processLine st l), ih (processLine emptyState l),
        processLine_decomp st l, processLine_decomp emptyState l]
    simp [emptyState, List.append_assoc]

/-- Dropping the last element of a list that ends in a known singleton. -/
theorem dropLast_append_singleton (l : List Char) (c : Char) : (l ++ [c]).dropLast = l := by
  simp

/-- C1 (code-bug evidence): on a model response consisting of the single
line GENERAL colon space looks fine — exactly the general-comment format
the program's own prompt instructs the model to use — the three-field
grammar does not match (the line holds a single colon), so the parser
appends the raw line to the general buffer: the review body is the whole
raw line, not the trimmed third field claimed, and no positioned comment
is produced. -/
theorem general_single_colon_line_falls_to_raw_fallback :
    matchCommentLine ( "GENERAL: looks fine".toList) = none ∧
    (parseResponse ( "GENERAL: looks fine".toList)).comments = [] ∧
    (parseResponse ( "GENERAL: looks fine".toList)).generalCommentBody
      = "GENERAL: looks fine\n".toList ∧
    reviewBody (parseResponse ( "GENERAL: looks fine".toList))
      = "GENERAL: looks fine".toList ∧
    reviewBody (parseResponse ( "GENERAL: looks fine".toList)) ≠ "looks fine".toList := by
  decide

/-- C2: the diff reduction of the program equals the reference definition
written from the specification, and whenever the reducing branch is taken
(marker present and more than 5000 characters) the output length is at
most 5000. -/
theorem diffReducer_matches_reference (diff : List Char) :
    reduceDiff diff = reduceDiffSpec diff ∧
    (containsSeq ( "diff --git".toList) diff = true → 5000 < diff.length →
      (reduceDiff diff).length ≤ 5000) := by
  constructor
  · unfold reduceDiff reduceDiffSpec
    by_cases h1 : containsSeq ( "diff --git".toList) diff = true
    · by_cases h2 : 5000 < diff.length
      · have hneg : ¬(containsSeq ( "diff --git".toList) diff = false ∨ diff.length ≤ 5000) := by
          rintro (h | h)
          · rw [h1] at h; cases h
          · omega
        rw [if_pos ⟨h1, h2⟩, if_neg hneg]
      · have hpos : containsSeq ( "diff --git".toList) diff = false ∨ diff.length ≤ 5000 :=
          Or.inr (by omega)
        rw [if_neg (by tauto), if_pos hpos]
    · have hf : containsSeq ( "diff --git".toList) diff = false := by
        cases hb : containsSeq ( "diff --git".toList) diff
        · rfl
        · exact absurd hb h1
      rw [if_neg (by tauto), if_pos (Or.inl hf)]
  · intro h1 h2
    unfold reduceDiff
    rw [if_pos ⟨h1, h2⟩]
    simp [List.length_take]

/-- Witness for C2 at a concrete diff above the size limit: the marker is
present, the length exceeds 5000, and the reduction agrees with the
reference and respects the bound. -/
theorem diffReducer_matches_reference_witness :
    containsSeq ( "diff --git".toList) ( "diff --git\n".toList ++ List.replicate 5000 '+') = true ∧
    5000 < ( "diff --git\n".toList ++ List.replicate 5000 '+').length ∧
    reduceDiff ( "diff --git\n".toList ++ List.replicate 5000 '+')
      = reduceDiffSpec ( "diff --git\n".toList ++ List.replicate 5000 '+') ∧
    (reduceDiff ( "diff --git\n".toList ++ List.replicate 5000 '+')).length ≤ 5000 := by
  have hm : containsSeq ( "diff --git".toList)
      ( "diff --git\n".toList ++ List.replicate 5000 '+') = true := by decide
  have hl : 5000 < ( "diff --git\n".toList ++ List.replicate 5000 '+').length := by
    have h11 : ( "diff --git\n".toList).length = 11 := by decide
    rw [List.length_append, List.length_replicate, h11]
    omega
  exact ⟨hm, hl, (diffReducer_matches_reference _).1,
    (diffReducer_matches_reference _).2 hm hl⟩

/-- C3: a line that does not match the three-field grammar is appended raw,
plus a newline, to the general buffer and emits no positioned comment;
moreover no line is ever dropped: every line either contributes exactly
one positioned comment and leaves the buffer unchanged, or strictly grows
the general buffer.  The loop body is a total function, so a per-line
grammar mismatch never fails the parse as a whole. -/
theorem unmatched_line_degrades_to_general_buffer (st : ParseState) (line : List Char) :
    (matchCommentLine line = none →
      processLine st line =
        { st with generalCommentBody := st.generalCommentBody ++ line ++ ['\n'] }) ∧
    ((processLine st line).comments.length = st.comments.length + 1 ∧
        (processLine st line).generalCommentBody = st.generalCommentBody ∨
      (processLine st line).comments = st.comments ∧
        st.generalCommentBody.length < (processLine st line).generalCommentBody.length) := by
  constructor
  · intro h
    simp [processLine, h]
  · cases h : matchCommentLine line with
    | none =>
      refine Or.inr ⟨by simp [processLine, h], ?_⟩
      simp only [processLine, h]
      simp [List.length_append]
    | some t =>
      obtain ⟨f1, f2, f3⟩ := t
      simp only [processLine, h]
      split_ifs with hg
      · refine Or.inr ⟨by simp, ?_⟩
        simp [List.length_append]
      · cases hr : matchLineRange (trim f2) with
        | some p =>
          obtain ⟨s, e⟩ := p
          refine Or.inl ⟨?_, by simp [hr]⟩
          simp [hr]
        | none =>
          cases hs : matchSingleLine (trim f2) with
          | some n =>
            refine Or.inl ⟨?_, by simp [hr, hs]⟩
            simp [hr, hs]
          | none =>
            refine Or.inr ⟨by simp [hr, hs], ?_⟩
            simp only [hr, hs]
            simp [List.length_append]

/-- Witness for C3 at the concrete non-matching line of the end-to-end
scenario of the specification. -/
theorem unmatched_line_degrades_to_general_buffer_witness :
    matchCommentLine ( "badline".toList) = none ∧
    processLine emptyState ( "badline".toList)
      = { emptyState with generalCommentBody :=
            emptyState.generalCommentBody ++ "badline".toList ++ ['\n'] } :=
  ⟨by decide,
    (unmatched_line_degrades_to_general_buffer emptyState ( "badline".toList)).1 (by decide)⟩

/-- C4 (counterexample): an invocation whose owner field is the number 1 —
present but of the wrong type — is not rejected: validation passes and the
pipeline runs, refuting the claim that every wrong-typed field is rejected
before the pipeline. -/
theorem wrong_typed_truthy_args_pass_validation :
    isString (JSVal.num 1) = false ∧
    handleArgs (JSVal.num 1) (JSVal.str ( "r".toList)) (JSVal.num 2)
      = HandlerOutcome.pipeline (JSVal.num 1) (JSVal.str ( "r".toList)) (JSVal.num 2) := by
  decide

/-- C4 (amended): the argument check is a truthiness test, not a type or
presence test: the request is rejected with the invalid-parameters error
exactly when one of owner, repo, pull_number is falsy (absent fields being
undefined and hence falsy); a wrong-typed but truthy value passes and the
pipeline runs. -/
theorem validation_is_truthiness_test (owner repo pull_number : JSVal) :
    (∃ msg, handleArgs owner repo pull_number = HandlerOutcome.invalidParams msg) ↔
      (truthy owner = false ∨ truthy repo = false ∨ truthy pull_number = false) := by
  unfold handleArgs
  by_cases h : (truthy owner && truthy repo && truthy pull_number) = true
  · rw [if_pos h]
    simp only [Bool.and_eq_true] at h
    obtain ⟨⟨ho, hr⟩, hp⟩ := h
    constructor
    · rintro ⟨msg, hmsg⟩
      cases hmsg
    · rintro (hf | hf | hf)
      · rw [ho] at hf; cases hf
      · rw [hr] at hf; cases hf
      · rw [hp] at hf; cases hf
  · rw [if_neg h]
    constructor
    · intro _
      simp only [Bool.and_eq_true, not_and_or, Bool.not_eq_true] at h
      tauto
    · intro _
      exact ⟨_, rfl⟩

/-- C5 (counterexample): without a separating newline the last line of the
first response merges with the first line of the second, so the comments
of the concatenation are not the concatenation of the comment lists; and
even with a trailing newline the summaries do not join, because an empty
general buffer is replaced by the fixed default. -/
theorem parse_concat_counterexample :
    (parseResponse ( "a:1: x".toList ++ "b:2: y".toList)).comments
        ≠ (parseResponse ( "a:1: x".toList)).comments
          ++ (parseResponse ( "b:2: y".toList)).comments ∧
    reviewBody (parseResponse ( "a:1: x\n".toList ++ "b:2: y".toList))
        ≠ reviewBody (parseResponse ( "a:1: x\n".toList))
          ++ reviewBody (parseResponse ( "b:2: y".toList)) ∧
    reviewBody (parseResponse ( "a:1: x\n".toList ++ "b:2: y".toList))
        ≠ reviewBody (parseResponse ( "a:1: x\n".toList)) ++ '\n'
          :: reviewBody (parseResponse ( "b:2: y".toList)) := by
  decide

/-- C5 (amended): when the first response text ends with a newline, parsing
the concatenation yields exactly the concatenation, in order, of the two
individually parsed positioned-comment lists, and the general buffer of
the concatenation is the first buffer minus its final structural newline
followed by the second buffer; the finished summaries themselves need not
compose, because of trimming and the empty-buffer default. -/
theorem parse_concat_of_newline_terminated (r1 r2 : List Char)
    (h : ∃ s, r1 = s ++ ['\n']) :
    (parseResponse (r1 ++ r2)).comments
      = (parseResponse r1).comments ++ (parseResponse r2).comments ∧
    (parseResponse (r1 ++ r2)).generalCommentBody
      = (parseResponse r1).generalCommentBody.dropLast
        ++ (parseResponse r2).generalCommentBody := by
  obtain ⟨s, rfl⟩ := h
  have hsplit : splitLines ((s ++ ['\n']) ++ r2) = splitLines s ++ splitLines r2 := by
    rw [List.append_assoc]
    exact splitLines_append_newline s r2
  have h1 : parseLines [[]] emptyState = ⟨[], ['\n'], []⟩ := by decide
  unfold parseResponse
  rw [hsplit, splitLines_concat_newline, parseLines_append, parseLines_append,
    parseLines_decomp (splitLines r2) (parseLines (splitLines s) emptyState),
    parseLines_decomp [[]] (parseLines (splitLines s) emptyState), h1]
  constructor
  · simp
  · simp [dropLast_append_singleton]

/-- Witness for C5 (amended) at concrete responses: the first ends with a
newline, and both the comment-concatenation law and the buffer law hold. -/
theorem parse_concat_of_newline_terminated_witness :
    (∃ s, ( "a:1: x\n".toList) = s ++ ['\n']) ∧
    (parseResponse ( "a:1: x\n".toList ++ "hello".toList)).comments
      = (parseResponse ( "a:1: x\n".toList)).comments
        ++ (parseResponse ( "hello".toList)).comments ∧
    (parseResponse ( "a:1: x\n".toList ++ "hello".toList)).generalCommentBody
      = (parseResponse ( "a:1: x\n".toList)).generalCommentBody.dropLast
        ++ (parseResponse ( "hello".toList)).generalCommentBody :=
  ⟨⟨ "a:1: x".toList, by decide⟩,
    (parse_concat_of_newline_terminated ( "a:1: x\n".toList) ( "hello".toList)
      ⟨ "a:1: x".toList, by decide⟩).1,
    (parse_concat_of_newline_terminated ( "a:1: x\n".toList) ( "hello".toList)
      ⟨ "a:1: x".toList, by decide⟩).2⟩

/-- C6: a grammar-matching line whose file path is not GENERAL and whose
trimmed line specification matches neither the single-line nor the range
pattern emits no positioned comment and is not dropped: the synthesized
general-comment line File colon path comma Line Info colon spec colon body
(plus newline) is appended to the buffer, and a diagnostic naming the
unparsed specification is emitted. -/
theorem unparseable_line_spec_degrades (st : ParseState) (line f1 f2 f3 : List Char)
    (hm : matchCommentLine line = some (f1, f2, f3))
    (hg : trim f1 ≠ "GENERAL".toList)
    (hr : matchLineRange (trim f2) = none)
    (hs : matchSingleLine (trim f2) = none) :
    processLine st line =
      { st with
          generalCommentBody := st.generalCommentBody ++ "File: ".toList ++ trim f1
            ++ ", Line Info: ".toList ++ trim f2 ++ ": ".toList ++ trim f3 ++ ['\n'],
          diagnostics := st.diagnostics ++
            [ "[Warning] Could not parse line number info: ".toList ++ trim f2
              ++ " for file ".toList ++ trim f1] } := by
  simp only [processLine, hm]
  rw [if_neg hg]
  simp only [hr, hs]

/-- Witness for C6 at the concrete line src/a.ts colon abc colon fix. -/
theorem unparseable_line_spec_degrades_witness :
    matchCommentLine ( "src/a.ts:abc: fix".toList)
      = some ( "src/a.ts".toList, "abc".toList, " fix".toList) ∧
    trim ( "src/a.ts".toList) ≠ "GENERAL".toList ∧
    matchLineRange (trim ( "abc".toList)) = none ∧
    matchSingleLine (trim ( "abc".toList)) = none ∧
    processLine emptyState ( "src/a.ts:abc: fix".toList)
      = { emptyState with
          generalCommentBody := emptyState.generalCommentBody ++ "File: ".toList
            ++ trim ( "src/a.ts".toList) ++ ", Line Info: ".toList ++ trim ( "abc".toList)
            ++ ": ".toList ++ trim ( " fix".toList) ++ ['\n'],
          diagnostics := emptyState.diagnostics ++
            [ "[Warning] Could not parse line number info: ".toList ++ trim ( "abc".toList)
              ++ " for file ".toList ++ trim ( "src/a.ts".toList)] } :=
  ⟨by decide, by decide, by decide, by decide,
    unparseable_line_spec_degrades emptyState ( "src/a.ts:abc: fix".toList)
      ( "src/a.ts".toList) ( "abc".toList) ( " fix".toList)
      (by decide) (by decide) (by decide) (by decide)⟩

/-- C7: a grammar-matching line whose trimmed line specification matches
the range pattern emits exactly one positioned comment carrying the two
captured integers in the order captured — the first into start_line, the
second into line — with both side tags RIGHT, and touches neither the
general buffer nor the diagnostics.  No reordering happens, so a range
whose start exceeds its end is preserved as captured. -/
theorem range_spec_preserves_captured_order (st : ParseState) (line f1 f2 f3 : List Char)
    (s e : Nat) (hm : matchCommentLine line = some (f1, f2, f3))
    (hg : trim f1 ≠ "GENERAL".toList)
    (hr : matchLineRange (trim f2) = some (s, e)) :
    processLine st line =
      { st with comments := st.comments ++
          [⟨trim f1, trim f3, e, some s, Side.RIGHT, some Side.RIGHT⟩] } := by
  simp only [processLine, hm]
  rw [if_neg hg]
  simp only [hr]

/-- Witness for C7 at the concrete line src/a.ts colon 10-12 colon
refactor, yielding start 10 and end 12; the reversed range 12-10 is also
captured in order, without reordering. -/
theorem range_spec_preserves_captured_order_witness :
    matchCommentLine ( "src/a.ts:10-12: refactor".toList)
      = some ( "src/a.ts".toList, "10-12".toList, " refactor".toList) ∧
    trim ( "src/a.ts".toList) ≠ "GENERAL".toList ∧
    matchLineRange (trim ( "10-12".toList)) = some (10, 12) ∧
    processLine emptyState ( "src/a.ts:10-12: refactor".toList)
      = { emptyState with comments := emptyState.comments ++
          [⟨trim ( "src/a.ts".toList), trim ( " refactor".toList), 12, some 10,
            Side.RIGHT, some Side.RIGHT⟩] } ∧
    matchLineRange ( "12-10".toList) = some (12, 10) :=
  ⟨by decide, by decide, by decide,
    range_spec_preserves_captured_order emptyState ( "src/a.ts:10-12: refactor".toList)
      ( "src/a.ts".toList) ( "10-12".toList) ( " refactor".toList) 10 12
      (by decide) (by decide) (by decide),
    by decide⟩

/-- C8: the line src/a.ts colon 10 colon fix this emits exactly one
positioned comment with path src/a.ts, line 10 and body fix this, and
leaves the general buffer and diagnostics untouched; embedded anywhere in
a response, its comment is inserted in order between the comments of the
surrounding lines while contributing nothing to the general buffer. -/
theorem single_line_spec_emits_exactly_one_comment :
    (∀ st : ParseState, processLine st ( "src/a.ts:10: fix this".toList) =
      { st with comments := st.comments ++
          [⟨ "src/a.ts".toList, "fix this".toList, 10, none, Side.RIGHT, none⟩] }) ∧
    (∀ pre post : List (List Char),
      (parseLines (pre ++ "src/a.ts:10: fix this".toList :: post) emptyState).comments
        = (parseLines pre emptyState).comments
          ++ [⟨ "src/a.ts".toList, "fix this".toList, 10, none, Side.RIGHT, none⟩]
          ++ (parseLines post emptyState).comments ∧
      (parseLines (pre ++ "src/a.ts:10: fix this".toList :: post) emptyState).generalCommentBody
        = (parseLines pre emptyState).generalCommentBody
          ++ (parseLines post emptyState).generalCommentBody) := by
  have hline : processLine emptyState ( "src/a.ts:10: fix this".toList)
      = ⟨[⟨ "src/a.ts".toList, "fix this".toList, 10, none, Side.RIGHT, none⟩], [], []⟩ := by
    decide
  constructor
  · intro st
    rw [processLine_decomp st, hline]
    simp
  · intro pre post
    rw [parseLines_append pre ( "src/a.ts:10: fix this".toList :: post) emptyState,
      show parseLines ( "src/a.ts:10: fix this".toList :: post) (parseLines pre emptyState)
        = parseLines post (processLine (parseLines pre emptyState)
            ( "src/a.ts:10: fix this".toList)) from rfl,
      parseLines_decomp post, processLine_decomp (parseLines pre emptyState), hline]
    constructor
    · simp
    · simp

/-- C9 (counterexample): the summary is not merely the buffer trimmed of
trailing whitespace.  On the response space-h-i the buffer is space-h-i
newline and the code trims the leading space too; and on the empty
response the buffer is a lone newline — nonempty, so the claim predicts
the trailing-trimmed (empty) text — while the code falls back to the
default. -/
theorem summary_trim_counterexample :
    reviewBody (parseResponse ( " hi".toList))
        ≠ trimTrailing (parseResponse ( " hi".toList)).generalCommentBody ∧
    (parseResponse ( "".toList)).generalCommentBody ≠ [] ∧
    reviewBody (parseResponse ( "".toList))
        ≠ trimTrailing (parseResponse ( "".toList)).generalCommentBody := by
  decide

/-- C9 (amended): after all lines are consumed, if the general buffer trims
(at both ends, per JS trim) to the empty string the summary is the fixed
default Automated code review; otherwise the summary is the buffer trimmed
of leading and trailing whitespace; consequently the summary is never
empty. -/
theorem summary_default_and_both_ends_trim (r : List Char) :
    (trim (parseResponse r).generalCommentBody = [] →
      reviewBody (parseResponse r) = "Automated code review".toList) ∧
    (trim (parseResponse r).generalCommentBody ≠ [] →
      reviewBody (parseResponse r) = trim (parseResponse r).generalCommentBody) ∧
    reviewBody (parseResponse r) ≠ [] := by
  by_cases h : trim (parseResponse r).generalCommentBody = []
  · have hb : (trim (parseResponse r).generalCommentBody).isEmpty = true := by
      rw [h]; rfl
    refine ⟨fun _ => ?_, fun hne => absurd h hne, ?_⟩
    · rw [reviewBody, if_pos hb]
    · rw [reviewBody, if_pos hb]
      decide
  · have hb : ¬((trim (parseResponse r).generalCommentBody).isEmpty = true) := by
      cases hm : trim (parseResponse r).generalCommentBody with
      | nil => exact absurd hm h
      | cons a l => simp
    refine ⟨fun hc => absurd hc h, fun _ => ?_, ?_⟩
    · rw [reviewBody, if_neg hb]
    · rw [reviewBody, if_neg hb]
      exact h

/-- Witness for C9 (amended) at a response whose buffer trims nonempty:
the summary is the trimmed buffer and is nonempty. -/
theorem summary_default_and_both_ends_trim_witness :
    trim (parseResponse ( " hi".toList)).generalCommentBody ≠ [] ∧
    reviewBody (parseResponse ( " hi".toList))
      = trim (parseResponse ( " hi".toList)).generalCommentBody ∧
    reviewBody (parseResponse ( " hi".toList)) ≠ [] :=
  ⟨by decide, (summary_default_and_both_ends_trim ( " hi".toList)).2.1 (by decide),
    (summary_default_and_both_ends_trim ( " hi".toList)).2.2⟩

/-- C10: well-typed invocations carrying a falsy value — owner or repo the
empty string, or pull_number the integer zero — are rejected with the
invalid-parameters error before the pipeline runs, because the check tests
truthiness, not presence. -/
theorem falsy_well_typed_args_rejected (o r : List Char) (n : Int)
    (h : o = [] ∨ r = [] ∨ n = 0) :
    handleArgs (JSVal.str o) (JSVal.str r) (JSVal.num n)
      = HandlerOutcome.invalidParams
          ( "Missing required parameters: owner, repo, pull_number".toList) := by
  unfold handleArgs truthy
  rcases h with rfl | rfl | rfl
  · simp
  · simp
  · simp

/-- Witness for C10 at owner equal to the empty string. -/
theorem falsy_well_typed_args_rejected_witness :
    (([] : List Char) = [] ∨ ( "r".toList) = [] ∨ (1 : Int) = 0) ∧
    handleArgs (JSVal.str []) (JSVal.str ( "r".toList)) (JSVal.num 1)
      = HandlerOutcome.invalidParams
          ( "Missing required parameters: owner, repo, pull_number".toList) :=
  ⟨Or.inl rfl, falsy_well_typed_args_rejected [] ( "r".toList) 1 (Or.inl rfl)⟩
